import Mathlib

/-!
Shallow embedding of the streaming consumer and the citation-extraction
logic of src/readme_examples.py.

The embedded code is the body of stream_searchify_response (the loop over
response.iter_lines at lines 40-58) and the citation extraction performed
with re.findall and dictionary lookup in test_python_example (lines 64-70)
and test_citation_extraction (lines 275-285).
-/

/-- The snippet object carried by every search result. -/
structure Snippet where
  pre : String
  text : String
  post : String
deriving DecidableEq

/-- One search result record, as carried by the search_results field of a
decoded event.  Field names follow the wire schema checked in
test_response_format. -/
structure SearchResult where
  id : String
  title : String
  url : String
  source : String
  metadata : List (String × String)
  snippet : Snippet
deriving DecidableEq

/-- A decoded JSON payload of one data line.  An Option field set to none
models a key that is absent from the JSON object, so that data.get on it
returns None; a JSON null search_results is also modelled as none, since
data.get returns a falsy value for both and the code only tests
truthiness. -/
structure StreamEvent where
  isDone : Option Bool
  updatedText : Option String
  search_results : Option (List SearchResult)
deriving DecidableEq

/-- Truthiness of data.get with key isDone: an absent key gives None and
False gives False, both falsy; only True is truthy. -/
def isDoneTruthy (e : StreamEvent) : Bool :=
  e.isDone.getD false

/-- Truthiness of data.get with key search_results: None (absent or JSON
null) and the empty list are falsy; a nonempty list is truthy. -/
def searchResultsTruthy (e : StreamEvent) : Bool :=
  match e.search_results with
  | some (_ :: _) => true
  | _ => false

/-- The citations dictionary: an association list with the keys kept
unique and in insertion order, as in a Python dict. -/
abbrev Citations := List (String × SearchResult)

/-- Python dict assignment d[k] = v: if the key is present its value is
replaced in place, keeping its position; otherwise the new binding is
appended at the end. -/
def dictInsert : Citations → String → SearchResult → Citations
  | [], k, v => [(k, v)]
  | (k₀, v₀) :: d, k, v =>
    if k₀ = k then (k, v) :: d else (k₀, v₀) :: dictInsert d k v

/-- Python membership test k in d on a dict. -/
def hasKey (d : Citations) (k : String) : Bool :=
  d.any (fun p => p.1 = k)

/-- Python indexing d[k], as an Option (the dictionaries built by the
consumer have unique keys, so the first binding is the binding). -/
def dictGet? (d : Citations) (k : String) : Option SearchResult :=
  (d.find? (fun p => p.1 = k)).map Prod.snd

/-- Lines 49-50: citations[result.id] = result for each result of the
event, in list order. -/
def upsertResults (d : Citations) (rs : List SearchResult) : Citations :=
  rs.foldl (fun acc r => dictInsert acc r.id r) d

/-- The two loop variables full_text and citations of
stream_searchify_response, which are also the two entries of the
dictionary the function returns (text and citations). -/
structure AnswerState where
  text : String
  citations : Citations
deriving DecidableEq

/-- Lines 44-50 of src/readme_examples.py, the per-event part of the loop
body: overwrite full_text with data.get updatedText (default the empty
string), then, when the search_results value is truthy, upsert every
result of the event into citations. -/
def applyEvent (s : AnswerState) (e : StreamEvent) : AnswerState :=
  ⟨e.updatedText.getD "",
    if searchResultsTruthy e then upsertResults s.citations (e.search_results.getD [])
    else s.citations⟩

/-- One line delivered by response.iter_lines.  keepAlive is an empty
line, on which the test if line fails; other is a nonempty line that does
not start with the bytes data-colon-space; data is a payload line whose
JSON body decodes to the given event. -/
inductive RawLine where
  | keepAlive : RawLine
  | other : String → RawLine
  | data : StreamEvent → RawLine
deriving DecidableEq

/-- The loop of stream_searchify_response (lines 40-56): skip lines that
are empty or lack the payload prefix; on a payload line run the per-event
update, then return early when data.get isDone is truthy.  Falling off
the end of the loop returns the current state (line 58). -/
def streamLoop : List RawLine → AnswerState → AnswerState
  | [], s => s
  | RawLine.keepAlive :: rest, s => streamLoop rest s
  | RawLine.other _ :: rest, s => streamLoop rest s
  | RawLine.data e :: rest, s =>
    let s₁ := applyEvent s e
    if isDoneTruthy e then s₁ else streamLoop rest s₁

/-- stream_searchify_response, starting from full_text as the empty
string and citations as the empty dict (lines 37-38). -/
def stream_searchify_response (lines : List RawLine) : AnswerState :=
  streamLoop lines ⟨"", []⟩

/-- The events decoded from the payload lines of a raw stream, in order. -/
def decodedEvents (lines : List RawLine) : List StreamEvent :=
  lines.filterMap (fun l =>
    match l with
    | RawLine.data e => some e
    | _ => none)

/-- A raw line that does not terminate the loop: any non-payload line,
or a payload line whose event has a falsy isDone. -/
def lineNonTerminal (l : RawLine) : Bool :=
  match l with
  | RawLine.data e => !isDoneTruthy e
  | _ => true

/-- The plain fold of the per-event update over a list of decoded events,
from the initial state; used to state what the accumulated partial state
of the consumer is. -/
def accumulate (es : List StreamEvent) : AnswerState :=
  es.foldl applyEvent ⟨"", []⟩

/-- The code-point ranges of the Unicode decimal-digit characters
(general category Nd).  This is the character class matched by the
digit escape in a Python regular expression over a str pattern, where
re.UNICODE is the default flag, so the class is not limited to the ASCII
digits 0-9. -/
def ndRanges : List (Nat × Nat) :=
  [(0x30, 0x39), (0x660, 0x669), (0x6F0, 0x6F9), (0x7C0, 0x7C9),
   (0x966, 0x96F), (0x9E6, 0x9EF), (0xA66, 0xA6F), (0xAE6, 0xAEF),
   (0xB66, 0xB6F), (0xBE6, 0xBEF), (0xC66, 0xC6F), (0xCE6, 0xCEF),
   (0xD66, 0xD6F), (0xDE6, 0xDEF), (0xE50, 0xE59), (0xED0, 0xED9),
   (0xF20, 0xF29), (0x1040, 0x1049), (0x1090, 0x1099), (0x17E0, 0x17E9),
   (0x1810, 0x1819), (0x1946, 0x194F), (0x19D0, 0x19D9),
   (0x1A80, 0x1A89), (0x1A90, 0x1A99), (0x1B50, 0x1B59),
   (0x1BB0, 0x1BB9), (0x1C40, 0x1C49), (0x1C50, 0x1C59),
   (0xA620, 0xA629), (0xA8D0, 0xA8D9), (0xA900, 0xA909),
   (0xA9D0, 0xA9D9), (0xA9F0, 0xA9F9), (0xAA50, 0xAA59),
   (0xABF0, 0xABF9), (0xFF10, 0xFF19), (0x104A0, 0x104A9),
   (0x10D30, 0x10D39), (0x11066, 0x1106F), (0x110F0, 0x110F9),
   (0x11136, 0x1113F), (0x111D0, 0x111D9), (0x112F0, 0x112F9),
   (0x11450, 0x11459), (0x114D0, 0x114D9), (0x11650, 0x11659),
   (0x116C0, 0x116C9), (0x11730, 0x11739), (0x118E0, 0x118E9),
   (0x11950, 0x11959), (0x11C50, 0x11C59), (0x11D50, 0x11D59),
   (0x11DA0, 0x11DA9), (0x11F50, 0x11F59), (0x16A60, 0x16A69),
   (0x16AC0, 0x16AC9), (0x16B50, 0x16B59), (0x1D7CE, 0x1D7FF),
   (0x1E140, 0x1E149), (0x1E2F0, 0x1E2F9), (0x1E4F0, 0x1E4F9),
   (0x1E950, 0x1E959), (0x1FBF0, 0x1FBF9)]

/-- The digit character class of the pattern used at lines 64 and 275:
any Unicode decimal digit. -/
def pyIsDigit (c : Char) : Bool :=
  ndRanges.any (fun p => decide (p.1 ≤ c.toNat) && decide (c.toNat ≤ p.2))

/-- re.findall with the pattern bracket-digits-bracket over a list of
characters, returning each captured digit run in scan order.  The scan
mirrors the re engine: at an opening square bracket, a match needs a
nonempty digit run followed immediately by a closing square bracket
(greedy digits cannot backtrack into a successful match here, since a
digit is never a closing bracket); on a match the scan resumes after the
closing bracket, otherwise at the next character.  Characters other than
an opening bracket are skipped. -/
def pyFindMarkers (l : List Char) : List String :=
  match l with
  | [] => []
  | c :: rest =>
    if h : c = '[' ∧ rest.takeWhile pyIsDigit ≠ [] ∧
        (rest.dropWhile pyIsDigit).head? = some ']' then
      String.mk (rest.takeWhile pyIsDigit) :: pyFindMarkers (rest.dropWhile pyIsDigit).tail
    else
      pyFindMarkers rest
termination_by l.length
decreasing_by
  · have h₁ : (rest.dropWhile pyIsDigit).length ≤ rest.length := by
      have hs : (rest.dropWhile pyIsDigit).Sublist rest := List.dropWhile_sublist pyIsDigit
      exact hs.length_le
    have h₂ : rest.dropWhile pyIsDigit ≠ [] := by
      intro hnil
      rw [hnil] at h
      simp at h
    have h₃ : (rest.dropWhile pyIsDigit).tail.length = (rest.dropWhile pyIsDigit).length - 1 :=
      List.length_tail _
    have h₄ : 1 ≤ (rest.dropWhile pyIsDigit).length := List.length_pos.mpr h₂
    simp only [List.length_cons]
    omega
  · simp only [List.length_cons]
    omega

/-- The citation resolution performed at lines 64-70 and 275-285: scan
the finalized text for markers with re.findall, and for each marker in
scan order look it up in the citations dict by exact string key (the
membership test followed by indexing), an absent key giving none. -/
def resolveCitations (text : String) (d : Citations) : List (String × Option SearchResult) :=
  (pyFindMarkers text.data).map (fun m => (m, dictGet? d m))

/-- A concrete snippet used by the concrete instances below. -/
def sampleSnippet : Snippet :=
  ⟨"before", "quoted", "after"⟩

/-- A concrete search result with id 1. -/
def rOne : SearchResult :=
  ⟨"1", "Title One", "http://example.com/1", "web", [], sampleSnippet⟩

/-- A concrete search result with id 3. -/
def rThree : SearchResult :=
  ⟨"3", "Title Three", "http://example.com/3", "web", [], sampleSnippet⟩

/-- A second concrete search result with id 3, distinct from rThree. -/
def rThreeLater : SearchResult :=
  ⟨"3", "Title Three Revised", "http://example.com/3b", "web", [], sampleSnippet⟩

/-- A concrete search result with id 9. -/
def rNine : SearchResult :=
  ⟨"9", "Title Nine", "http://example.com/9", "web", [], sampleSnippet⟩

/-! Helper lemmas about the dictionary operations. -/

theorem hasKey_dictInsert_self (d : Citations) (k : String) (v : SearchResult) :
    hasKey (dictInsert d k v) k = true := by
  induction d with
  | nil => simp [dictInsert, hasKey]
  | cons p d ih =>
    obtain ⟨k₀, v₀⟩ := p
    by_cases hk : k₀ = k
    · simp [dictInsert, hasKey, hk]
    · simp only [dictInsert, if_neg hk, hasKey, List.any_cons]
      simp only [hasKey] at ih
      simp [ih]

theorem hasKey_dictInsert_of (d : Citations) (k k₀ : String) (v : SearchResult)
    (h : hasKey d k = true) : hasKey (dictInsert d k₀ v) k = true := by
  induction d with
  | nil => simp [hasKey] at h
  | cons p d ih =>
    obtain ⟨k₁, v₁⟩ := p
    by_cases hk : k₁ = k₀
    · simp only [dictInsert, if_pos hk, hasKey, List.any_cons] at h ⊢
      subst hk
      simpa using h
    · simp only [dictInsert, if_neg hk, hasKey, List.any_cons] at h ⊢
      rcases Bool.or_eq_true_iff.mp h with h₁ | h₂
      · simp [h₁]
      · simp only [hasKey] at ih
        simp [ih h₂]

theorem hasKey_upsertResults_of (d : Citations) (rs : List SearchResult) (k : String)
    (h : hasKey d k = true) : hasKey (upsertResults d rs) k = true := by
  induction rs generalizing d with
  | nil => simpa [upsertResults] using h
  | cons r rs ih =>
    simp only [upsertResults, List.foldl_cons]
    exact ih (dictInsert d r.id r) (hasKey_dictInsert_of d k r.id r h)

theorem hasKey_upsertResults_of_mem (d : Citations) (rs : List SearchResult)
    (r : SearchResult) (h : r ∈ rs) : hasKey (upsertResults d rs) r.id = true := by
  induction rs generalizing d with
  | nil => cases h
  | cons r₀ rs ih =>
    simp only [upsertResults, List.foldl_cons]
    rcases List.mem_cons.mp h with h₀ | h₁
    · subst h₀
      exact hasKey_upsertResults_of (dictInsert d r.id r) rs r.id
        (hasKey_dictInsert_self d r.id r)
    · exact ih (dictInsert d r₀.id r₀) h₁

theorem dictGet?_dictInsert_ne (d : Citations) (k k₀ : String) (v : SearchResult)
    (h : k ≠ k₀) : dictGet? (dictInsert d k₀ v) k = dictGet? d k := by
  induction d with
  | nil =>
    simp only [dictInsert, dictGet?, List.find?]
    have : ¬ ((k₀, v).1 = k) := fun hc => h hc.symm
    simp [this]
  | cons p d ih =>
    obtain ⟨k₁, v₁⟩ := p
    by_cases hk : k₁ = k₀
    · subst hk
      simp only [dictInsert, if_pos rfl, dictGet?, List.find?]
      have h₁ : ¬ ((k₁, v).1 = k) := fun hc => h hc.symm
      have h₂ : ¬ ((k₁, v₁).1 = k) := fun hc => h hc.symm
      simp [h₁, h₂]
    · simp only [dictInsert, if_neg hk, dictGet?, List.find?] at ih ⊢
      by_cases hk₁ : k₁ = k
      · simp [hk₁]
      · have h₁ : ((k₁, v₁).1 = k) = False := by simp [hk₁]
        simp only [h₁, decide_False]
        simpa using ih

theorem dictGet?_upsertResults_of_forall (d : Citations) (rs : List SearchResult)
    (k : String) (h : ∀ r ∈ rs, r.id ≠ k) :
    dictGet? (upsertResults d rs) k = dictGet? d k := by
  induction rs generalizing d with
  | nil => simp [upsertResults]
  | cons r rs ih =>
    simp only [upsertResults, List.foldl_cons]
    have h₁ : ∀ r₀ ∈ rs, r₀.id ≠ k := fun r₀ hr₀ => h r₀ (List.mem_cons_of_mem r hr₀)
    have h₂ : k ≠ r.id := fun hc => h r (List.mem_cons_self r rs) hc.symm
    calc dictGet? (upsertResults (dictInsert d r.id r) rs) k
        = dictGet? (dictInsert d r.id r) k := ih (dictInsert d r.id r) h₁
      _ = dictGet? d k := dictGet?_dictInsert_ne d k r.id r h₂

/-! Helper lemmas about the stream loop. -/

theorem streamLoop_append (xs ys : List RawLine) (s : AnswerState)
    (h : xs.all lineNonTerminal = true) :
    streamLoop (xs ++ ys) s = streamLoop ys ((decodedEvents xs).foldl applyEvent s) := by
  induction xs generalizing s with
  | nil => simp [decodedEvents]
  | cons l xs ih =>
    have h₁ : lineNonTerminal l = true ∧ xs.all lineNonTerminal = true := by
      simpa [List.all_cons] using h
    cases l with
    | keepAlive =>
      simp only [List.cons_append, streamLoop, List.append_eq]
      rw [ih s h₁.2]
      simp [decodedEvents]
    | other str =>
      simp only [List.cons_append, streamLoop, List.append_eq]
      rw [ih s h₁.2]
      simp [decodedEvents]
    | data e =>
      have hd : isDoneTruthy e = false := by
        have := h₁.1
        simpa [lineNonTerminal] using this
      simp only [List.cons_append, streamLoop, List.append_eq, hd,
        if_neg Bool.false_ne_true]
      rw [ih (applyEvent s e) h₁.2]
      simp [decodedEvents]

theorem streamLoop_done_head (e : StreamEvent) (rest : List RawLine) (s : AnswerState)
    (h : isDoneTruthy e = true) :
    streamLoop (RawLine.data e :: rest) s = applyEvent s e := by
  simp [streamLoop, h]

/-! The claims. -/

/-- Claim C1: after the accumulator processes an event, its text equals
that event's updatedText exactly (overwrite), never a concatenation of
the previous text with the new text.  The second conjunct states the
overwrite as independence from the prior state: any two prior states
yield the same text after the event. -/
theorem snapshot_overwrite (s : AnswerState) (e : StreamEvent) (t : String)
    (h : e.updatedText = some t) :
    (applyEvent s e).text = t ∧
      ∀ s₀ : AnswerState, (applyEvent s₀ e).text = (applyEvent s e).text := by
  constructor
  · simp [applyEvent, h]
  · intro s₀
    simp [applyEvent]

/-- Witness for snapshot_overwrite at a prior state with nonempty text. -/
theorem snapshot_overwrite_witness :
    (⟨none, some "second", none⟩ : StreamEvent).updatedText = some "second" ∧
      ((applyEvent ⟨"first", []⟩ ⟨none, some "second", none⟩).text = "second" ∧
        ∀ s₀ : AnswerState,
          (applyEvent s₀ ⟨none, some "second", none⟩).text =
            (applyEvent ⟨"first", []⟩ ⟨none, some "second", none⟩).text) :=
  ⟨rfl, snapshot_overwrite ⟨"first", []⟩ ⟨none, some "second", none⟩ "second" rfl⟩

/-- Claim C3: across a fold step the set of registry keys never shrinks,
and the value bound to a key changes only when the event supplies a
search result with that id. -/
theorem registry_monotonicity (s : AnswerState) (e : StreamEvent) (k : String) :
    (hasKey s.citations k = true → hasKey (applyEvent s e).citations k = true) ∧
      (dictGet? (applyEvent s e).citations k ≠ dictGet? s.citations k →
        ∃ r ∈ e.search_results.getD [], r.id = k) := by
  constructor
  · intro h
    by_cases ht : searchResultsTruthy e = true
    · simp only [applyEvent, ht, if_true]
      exact hasKey_upsertResults_of s.citations (e.search_results.getD []) k h
    · simp only [applyEvent, Bool.not_eq_true] at ht ⊢
      simp only [ht, Bool.false_eq_true, if_false]
      exact h
  · intro h
    by_cases ht : searchResultsTruthy e = true
    · by_contra hc
      push_neg at hc
      apply h
      simp only [applyEvent, ht, if_true]
      exact dictGet?_upsertResults_of_forall s.citations (e.search_results.getD []) k hc
    · exfalso
      apply h
      simp only [applyEvent, Bool.not_eq_true] at ht ⊢
      simp [ht]

/-- Witness for registry_monotonicity: an event overwriting key 3 keeps
the key present, and the changed value comes with a supplied result of
that id. -/
theorem registry_monotonicity_witness :
    hasKey (applyEvent ⟨"old", [("3", rThree)]⟩
        ⟨some false, some "t", some [rThreeLater]⟩).citations "3" = true ∧
      ∃ r ∈ (⟨some false, some "t", some [rThreeLater]⟩ : StreamEvent).search_results.getD [],
        r.id = "3" :=
  ⟨(registry_monotonicity ⟨"old", [("3", rThree)]⟩
      ⟨some false, some "t", some [rThreeLater]⟩ "3").1 (by decide),
   (registry_monotonicity ⟨"old", [("3", rThree)]⟩
      ⟨some false, some "t", some [rThreeLater]⟩ "3").2 (by decide)⟩

/-- Claim C9: an event whose decoded JSON object lacks the updatedText
key resets the running text to the empty string, discarding the
previously accumulated text. -/
theorem missing_updatedText_resets (s : AnswerState) (e : StreamEvent)
    (h : e.updatedText = none) : (applyEvent s e).text = "" := by
  simp [applyEvent, h]

/-- Witness for missing_updatedText_resets at a state with nonempty
text. -/
theorem missing_updatedText_resets_witness :
    (⟨some false, none, none⟩ : StreamEvent).updatedText = none ∧
      (applyEvent ⟨"kept so far", [("1", rOne)]⟩ ⟨some false, none, none⟩).text = "" :=
  ⟨rfl, missing_updatedText_resets ⟨"kept so far", [("1", rOne)]⟩ ⟨some false, none, none⟩ rfl⟩

/-- Claim C10: an event whose search_results is absent, null or the
empty list leaves the registry unchanged, while the text is still
overwritten. -/
theorem empty_search_results_frame (s : AnswerState) (e : StreamEvent)
    (h : e.search_results = none ∨ e.search_results = some []) :
    (applyEvent s e).citations = s.citations ∧
      (applyEvent s e).text = e.updatedText.getD "" := by
  have ht : searchResultsTruthy e = false := by
    rcases h with h | h <;> simp [searchResultsTruthy, h]
  constructor
  · simp [applyEvent, ht]
  · simp [applyEvent]

/-- Witness for empty_search_results_frame: an event with an empty
result list keeps a nonempty registry intact and overwrites the text. -/
theorem empty_search_results_frame_witness :
    ((⟨some false, some "new", some []⟩ : StreamEvent).search_results = none ∨
        (⟨some false, some "new", some []⟩ : StreamEvent).search_results = some []) ∧
      ((applyEvent ⟨"old", [("3", rThree)]⟩ ⟨some false, some "new", some []⟩).citations =
          [("3", rThree)] ∧
        (applyEvent ⟨"old", [("3", rThree)]⟩ ⟨some false, some "new", some []⟩).text =
          (⟨some false, some "new", some []⟩ : StreamEvent).updatedText.getD "") :=
  ⟨Or.inr rfl,
   empty_search_results_frame ⟨"old", [("3", rThree)]⟩ ⟨some false, some "new", some []⟩
     (Or.inr rfl)⟩

/-- Claim C2: consumption stops at the first decoded event whose isDone
is truthy even if more lines follow; the result equals the result of the
stream truncated right after that event, its text is that event's
updatedText, and its registry has a key for every search result the
event carries. -/
theorem early_termination (pre rest : List RawLine) (e : StreamEvent) (t : String)
    (hpre : pre.all lineNonTerminal = true) (hdone : isDoneTruthy e = true)
    (ht : e.updatedText = some t) :
    stream_searchify_response (pre ++ RawLine.data e :: rest) =
        stream_searchify_response (pre ++ [RawLine.data e]) ∧
      (stream_searchify_response (pre ++ RawLine.data e :: rest)).text = t ∧
      ∀ r ∈ e.search_results.getD [],
        hasKey (stream_searchify_response (pre ++ RawLine.data e :: rest)).citations r.id =
          true := by
  have key : ∀ rest₀ : List RawLine,
      stream_searchify_response (pre ++ RawLine.data e :: rest₀) =
        applyEvent ((decodedEvents pre).foldl applyEvent ⟨"", []⟩) e := by
    intro rest₀
    unfold stream_searchify_response
    rw [streamLoop_append pre (RawLine.data e :: rest₀) ⟨"", []⟩ hpre]
    exact streamLoop_done_head e rest₀ _ hdone
  refine ⟨?_, ?_, ?_⟩
  · rw [key rest, key []]
  · rw [key rest]
    simp [applyEvent, ht]
  · intro r hr
    rw [key rest]
    rcases hsr : e.search_results with _ | rs
    · rw [hsr] at hr
      simp at hr
    · rw [hsr] at hr
      simp only [Option.getD_some] at hr
      have htr : searchResultsTruthy e = true := by
        cases rs with
        | nil => simp at hr
        | cons a l => simp [searchResultsTruthy, hsr]
      simp only [applyEvent, htr, if_true, hsr, Option.getD_some]
      exact hasKey_upsertResults_of_mem _ rs r hr

/-- Witness for early_termination: one non-terminal event, then a
terminal event carrying a result with id 1, then a further line that is
ignored. -/
theorem early_termination_witness :
    ([RawLine.data ⟨some false, some "draft", none⟩] : List RawLine).all lineNonTerminal =
        true ∧
      isDoneTruthy ⟨some true, some "final", some [rOne]⟩ = true ∧
      (⟨some true, some "final", some [rOne]⟩ : StreamEvent).updatedText = some "final" ∧
      (stream_searchify_response
          ([RawLine.data ⟨some false, some "draft", none⟩] ++
            RawLine.data ⟨some true, some "final", some [rOne]⟩ ::
              [RawLine.data ⟨none, some "ignored", none⟩]) =
          stream_searchify_response
            ([RawLine.data ⟨some false, some "draft", none⟩] ++
              [RawLine.data ⟨some true, some "final", some [rOne]⟩]) ∧
        (stream_searchify_response
            ([RawLine.data ⟨some false, some "draft", none⟩] ++
              RawLine.data ⟨some true, some "final", some [rOne]⟩ ::
                [RawLine.data ⟨none, some "ignored", none⟩])).text = "final" ∧
        ∀ r ∈ (⟨some true, some "final", some [rOne]⟩ : StreamEvent).search_results.getD [],
          hasKey
            (stream_searchify_response
              ([RawLine.data ⟨some false, some "draft", none⟩] ++
                RawLine.data ⟨some true, some "final", some [rOne]⟩ ::
                  [RawLine.data ⟨none, some "ignored", none⟩])).citations r.id = true) :=
  ⟨by decide, by decide, rfl,
   early_termination [RawLine.data ⟨some false, some "draft", none⟩]
     [RawLine.data ⟨none, some "ignored", none⟩]
     ⟨some true, some "final", some [rOne]⟩ "final" (by decide) (by decide) rfl⟩

/-- Claim C4 counterexample: the consumer of a stream that closes with
no truthy isDone returns a value with only text and citations entries,
equal here to the value returned for a normally terminated stream, so
the return value carries no done flag that could distinguish degraded
from normal completion. -/
theorem degraded_completion_counterexample :
    ([RawLine.data ⟨some false, some "x", none⟩] : List RawLine).all lineNonTerminal = true ∧
      isDoneTruthy ⟨some true, some "x", none⟩ = true ∧
      stream_searchify_response [RawLine.data ⟨some false, some "x", none⟩] =
        stream_searchify_response [RawLine.data ⟨some true, some "x", none⟩] := by
  decide

/-- Claim C4 as amended: when the transport closes without any truthy
isDone, the consumer falls off the loop and returns the plain fold of
the per-event update over the decoded events, that is, the partial
accumulated text and registry; being a total function it raises
nothing, but the returned value carries no done flag. -/
theorem degraded_completion_amended (lines : List RawLine)
    (h : lines.all lineNonTerminal = true) :
    stream_searchify_response lines = accumulate (decodedEvents lines) := by
  unfold stream_searchify_response accumulate
  have hkey := streamLoop_append lines [] ⟨"", []⟩ h
  simpa using hkey

/-- Witness for degraded_completion_amended: a single non-terminal event
followed by a keep-alive line. -/
theorem degraded_completion_witness :
    ([RawLine.data ⟨some false, some "partial", some [rOne]⟩, RawLine.keepAlive] :
          List RawLine).all lineNonTerminal = true ∧
      stream_searchify_response
          [RawLine.data ⟨some false, some "partial", some [rOne]⟩, RawLine.keepAlive] =
        accumulate (decodedEvents
          [RawLine.data ⟨some false, some "partial", some [rOne]⟩, RawLine.keepAlive]) :=
  ⟨by decide,
   degraded_completion_amended
     [RawLine.data ⟨some false, some "partial", some [rOne]⟩, RawLine.keepAlive] (by decide)⟩

/-! Helper lemmas about the marker scan and the lookup. -/

theorem pyFindMarkers_mem (l : List Char) :
    ∀ m ∈ pyFindMarkers l, m.data ≠ [] ∧ m.data.all pyIsDigit = true := by
  induction l using pyFindMarkers.induct with
  | case1 =>
    intro m hm
    simp [pyFindMarkers] at hm
  | case2 c rest h ih =>
    intro m hm
    simp only [pyFindMarkers] at hm
    rw [dif_pos h] at hm
    rcases List.mem_cons.mp hm with h₀ | h₁
    · subst h₀
      refine ⟨h.2.1, ?_⟩
      exact List.all_eq_true.mpr (fun a ha => by
        have := List.mem_takeWhile_imp ha
        simpa using this)
    · exact ih m h₁
  | case3 c rest h ih =>
    intro m hm
    simp only [pyFindMarkers] at hm
    rw [dif_neg h] at hm
    exact ih m hm

theorem dictGet?_eq_none_of_not_hasKey (d : Citations) (k : String)
    (h : hasKey d k = false) : dictGet? d k = none := by
  have h₁ : ∀ p ∈ d, ¬ (decide (p.1 = k) = true) := by
    intro p hp
    have h₂ := List.any_eq_false.mp h p hp
    simpa using h₂
  have h₂ : List.find? (fun p => decide (p.1 = k)) d = none := List.find?_eq_none.mpr h₁
  simp [dictGet?, h₂]

/-- Claim C5: resolution produces exactly one match per inline marker
occurrence, in scan order, preserving duplicates; on the text of the
spec example with a registry holding only key 3, it yields exactly the
three matches 3, 3, 9 in order, the last unresolved. -/
theorem resolution_order_preservation :
    (∀ (t : String) (d : Citations),
        (resolveCitations t d).map Prod.fst = pyFindMarkers t.data) ∧
      resolveCitations "see [3] and also [3] and [9]" [("3", rThree)] =
        [("3", some rThree), ("3", some rThree), ("9", none)] := by
  constructor
  · intro t d
    simp only [resolveCitations, List.map_map]
    rw [show (Prod.fst ∘ fun m : String => (m, dictGet? d m)) = id from rfl]
    exact List.map_id _
  · simp +decide [resolveCitations, pyFindMarkers, dictGet?, List.find?]

/-- Claim C6: resolution yields one entry per marker occurrence, never
dropping any, and a marker whose key is absent from the registry yields
an entry with no resolved result; being a total function it raises
nothing. -/
theorem unresolved_markers_are_data (t : String) (d : Citations) :
    ((resolveCitations t d).map Prod.fst = pyFindMarkers t.data) ∧
      ∀ p ∈ resolveCitations t d, hasKey d p.1 = false → p.2 = none := by
  constructor
  · simp only [resolveCitations, List.map_map]
    rw [show (Prod.fst ∘ fun m : String => (m, dictGet? d m)) = id from rfl]
    exact List.map_id _
  · intro p hp hk
    simp only [resolveCitations, List.mem_map] at hp
    obtain ⟨m, hm, rfl⟩ := hp
    exact dictGet?_eq_none_of_not_hasKey d m hk

/-- Witness for unresolved_markers_are_data: marker 9 is absent from a
registry holding only key 3 and resolves to none while staying in the
output. -/
theorem unresolved_markers_witness :
    resolveCitations "see [9]" [("3", rThree)] = [("9", none)] ∧
      (("9", (none : Option SearchResult)) ∈ resolveCitations "see [9]" [("3", rThree)] ∧
        hasKey [("3", rThree)] "9" = false ∧
        ("9", (none : Option SearchResult)).2 = none) :=
  ⟨by simp +decide [resolveCitations, pyFindMarkers, dictGet?, List.find?],
   by
    have hmem : ("9", (none : Option SearchResult)) ∈ resolveCitations "see [9]" [("3", rThree)] := by
      simp +decide [resolveCitations, pyFindMarkers, dictGet?, List.find?]
    exact ⟨hmem, by decide,
      (unresolved_markers_are_data "see [9]" [("3", rThree)]).2 ("9", none) hmem (by decide)⟩⟩

/-- Claim C7 counterexample: on this text the code extracts the marker
consisting of the Arabic-Indic digit three, a character that is not an
ASCII digit, because the digit class of a Python str pattern covers
every Unicode decimal digit; so it is not the case that only bracketed
ASCII-digit runs are extracted. -/
theorem marker_syntax_counterexample :
    pyFindMarkers (String.data "see [٣]") = ["٣"] ∧ '٣'.isDigit = false := by
  constructor
  · simp +decide [pyFindMarkers]
  · decide

/-- Claim C7 as amended: a citation marker is a nonempty run of Unicode
decimal digits (the digit class of a Python str pattern, a superset of
the ASCII digits) enclosed in square brackets; the digits without the
brackets form the marker string; there is no whitespace tolerance inside
the brackets; and the registry lookup is an exact string-key comparison
with no numeric coercion, so key 03 does not serve marker 3. -/
theorem marker_syntax_amended (l : List Char) (m : String) (h : m ∈ pyFindMarkers l) :
    (m.data ≠ [] ∧ m.data.all pyIsDigit = true) ∧
      pyFindMarkers (String.data "see [ 12]") = [] ∧
      pyFindMarkers (String.data "see [12 ]") = [] ∧
      pyFindMarkers (String.data "see [12]") = ["12"] ∧
      dictGet? [("03", rThree)] "3" = none ∧
      dictGet? [("3", rThree)] "3" = some rThree := by
  refine ⟨pyFindMarkers_mem l m h, ?_, ?_, ?_, ?_, ?_⟩
  · simp +decide [pyFindMarkers]
  · simp +decide [pyFindMarkers]
  · simp +decide [pyFindMarkers]
  · decide
  · decide

/-- Witness for marker_syntax_amended at the marker 12 of a concrete
text. -/
theorem marker_syntax_witness :
    ("12" ∈ pyFindMarkers (String.data "see [12] here")) ∧
      (String.data "12" ≠ [] ∧ (String.data "12").all pyIsDigit = true) :=
  ⟨by simp +decide [pyFindMarkers],
   (marker_syntax_amended (String.data "see [12] here") "12"
     (by simp +decide [pyFindMarkers])).1⟩

/-- Claim C8: resolution is a pure function of its two inputs: it is
determined by the text and the key-to-value behaviour of the registry,
and running it twice on the same inputs yields identical output. -/
theorem idempotent_resolution (t : String) (d₁ d₂ : Citations)
    (h : ∀ k : String, dictGet? d₁ k = dictGet? d₂ k) :
    resolveCitations t d₁ = resolveCitations t d₂ ∧
      resolveCitations t d₁ = resolveCitations t d₁ := by
  refine ⟨?_, rfl⟩
  simp only [resolveCitations]
  exact List.map_congr_left (fun m _ => by rw [h m])

/-- Witness for idempotent_resolution: two syntactically different
registries with the same lookup behaviour resolve identically. -/
theorem idempotent_resolution_witness :
    resolveCitations "[1]" [("1", rOne)] = resolveCitations "[1]" [("1", rOne), ("1", rThree)] ∧
      resolveCitations "[1]" [("1", rOne)] = resolveCitations "[1]" [("1", rOne)] :=
  idempotent_resolution "[1]" [("1", rOne)] [("1", rOne), ("1", rThree)]
    (fun k => by by_cases hk : ("1" : String) = k <;> simp [dictGet?, List.find?, hk])
